import Mathlib

/-!
Shallow embedding of the request-interception core of the goproxy
repository (packages `helpers` and `request`), together with proofs about
it.  Go strings are modelled as lists of characters (`Str`), one `Char`
standing for one byte; Go maps as association lists; fallible/panicking
code returns `Option`.  Each definition is translated from the Go source
named in its doc comment.
-/

/-- Go strings, modelled byte-by-byte as `List Char`. -/
abbrev Str := List Char

/-- Embed a Lean string literal into the Go-string model. -/
def strL (s : String) : Str := s.toList

/-- Go `strings.HasPrefix(s, pat)` (argument order: pattern first). -/
def startsWith : Str → Str → Bool
  | [], _ => true
  | _ :: _, [] => false
  | a :: p, b :: l => a == b && startsWith p l

/-- Go `strings.Replace(url, pat, "", 1)`: delete the leftmost occurrence
of `pat` from `url` (no change if `pat` does not occur; for the empty
pattern Go returns the string unchanged, as does this function). -/
def replaceFirst : Str → Str → Str
  | [], _ => []
  | c :: rest, pat =>
    if startsWith pat (c :: rest) then (c :: rest).drop pat.length
    else c :: replaceFirst rest pat

/-- Go `strings.TrimPrefix(s, pre)`. -/
def trimLeading (pre s : Str) : Str :=
  if startsWith pre s then s.drop pre.length else s

/-- Go `strings.Contains(l, pat)`. -/
def containsSeq : Str → Str → Bool
  | [], pat => startsWith pat []
  | c :: rest, pat => startsWith pat (c :: rest) || containsSeq rest pat

/-- Go `http.Header`, modelled as an association list of key/value pairs
(one value per key, as every use in this code goes through `Get`/`Set`). -/
abbrev Headers := List (Str × Str)

/-- `http.Header.Get`: first value stored for the key, `""` if absent. -/
def headerGet (h : Headers) (k : Str) : Str :=
  match h.find? (fun p => p.1 == k) with
  | some p => p.2
  | none => []

/-- `http.Header.Set`: replace any existing value for the key. -/
def headerSet (h : Headers) (k v : Str) : Headers :=
  (h.filter (fun p => !(p.1 == k))) ++ [(k, v)]

/-- `http.Header.Del`. -/
def headerDel (h : Headers) (k : Str) : Headers :=
  h.filter (fun p => !(p.1 == k))

/-- `models.Environment` (the fields this core reads): identity, path
slug, upstream host, TLS flag, bound api id, running flag
(src/request/request.go, src/unnamed/part_003). -/
structure Environment where
  Id : Str
  Slug : Str
  Url : Str
  Ssl : Bool
  ApiId : Str
  running : Bool
deriving DecidableEq

/-- The Go zero value of `models.Environment`. -/
def zeroEnv : Environment := ⟨[], [], [], false, [], false⟩

/-- `models.Api` (only its id is read by this core). -/
structure Api where
  Id : Str
deriving DecidableEq

/-- The Go zero value of `models.Api`. -/
def zeroApi : Api := ⟨[]⟩

/-- The external tenant store (gorm DB) as read by this core: the rows the
`Where(...).First` queries select over. -/
structure Stores where
  envs : List Environment
  apis : List Api
deriving DecidableEq

/-- `http.Request` (the fields this core reads). -/
structure HttpRequest where
  method : Str
  header : Headers
  urlPath : Str
  urlHost : Str
  requestURI : Str
  remoteAddr : Str
  body : Str
deriving DecidableEq

/-- `request.BaseRequest` (src/request/request.go): wrapped request, the
header snapshot taken at creation, captured body, skip flag and the
lazily-resolved tenant fields (Go nil pointers = `none`). -/
structure BaseRequest where
  httpRequest : HttpRequest
  reqHeaders : Headers
  body : Str
  Skip : Bool
  env : Option Environment
  api : Option Api
deriving DecidableEq

/-- `request.NewBaseRequest` (src/request/request.go lines 94-108):
snapshots the headers, reads the body, starts with `Skip = false` and all
resolution fields at their Go zero value (nil). -/
def NewBaseRequest (r : HttpRequest) : BaseRequest :=
  { httpRequest := r
    reqHeaders := r.header
    body := r.body
    Skip := false
    env := none
    api := none }

/-- An HTTP response (the fields this core reads/writes). -/
structure Response where
  statusCode : Nat
  headers : Headers
  body : Str
deriving DecidableEq

/-- `slugFromUrl` (src/request/request.go lines 311-320): split the URL on
`/` and take the segment before the second `/` (or the whole path).  The
source indexes `url[0]` unconditionally, which panics on the empty
string; the panic is modelled as `none`.  Go's `parts[i]` indexing is
modelled by `get?` (out of range = panic = `none`; both indexings are in
range whenever the branch is taken on a nonempty string). -/
def slugFromUrl (url : Str) : Option Str :=
  let parts := url.splitOn '/'
  match url with
  | [] => none
  | c :: _ => if c == '/' then parts.get? 1 else parts.get? 0

/-- The gorm query `Where("slug = ? AND running = ?", identifier, true).First(&env)`
(src/request/request.go line 280): first matching row, or the zero value
when the query errors with record-not-found. -/
def findEnvBySlug (st : Stores) (slug : Str) : Environment :=
  match st.envs.find? (fun e => e.Slug == slug && e.running) with
  | some e => e
  | none => zeroEnv

/-- The gorm query `Where("url = ? AND running = ?", identifier, true).First(&env)`
(src/request/request.go line 298). -/
def findEnvByUrl (st : Stores) (host : Str) : Environment :=
  match st.envs.find? (fun e => e.Url == host && e.running) with
  | some e => e
  | none => zeroEnv

/-- The gorm query `Where("id = ?", identifier, true).First(&api)`
(src/unnamed/part_003 line 224; the LRU cache in front of it is
abstracted away — a hit returns the same record snapshot). -/
def findApiById (st : Stores) (id : Str) : Api :=
  match st.apis.find? (fun a => a.Id == id) with
  | some a => a
  | none => zeroApi

/-- `BaseRequest.GetEnvironment` (src/request/request.go lines 253-265),
as a state-passing function: result environment, the receiver after the
call, and the number of store lookups performed.  The source checks
`br.env != nil` but never assigns `br.env`, so the receiver is returned
unchanged; resolution runs `requestEnvFromPath` (one store lookup via
`slugFromUrl`, panicking on an empty request URI → `none`) and falls back
to `requestEnvFromHost` (a second lookup) when the path lookup produced a
zero `Id`. -/
def getEnvironmentS (st : Stores) (br : BaseRequest) :
    Option (Environment × BaseRequest × Nat) :=
  match br.env with
  | some e => some (e, br, 0)
  | none =>
    match slugFromUrl br.httpRequest.requestURI with
    | none => none
    | some identifier =>
      let env1 := findEnvBySlug st identifier
      if env1.Id = [] then some (findEnvByUrl st br.httpRequest.urlHost, br, 2)
      else some (env1, br, 1)

/-- The environment `BaseRequest.GetEnvironment` returns (`none` = panic). -/
def getEnvironment (st : Stores) (br : BaseRequest) : Option Environment :=
  (getEnvironmentS st br).map (fun x => x.1)

/-- `BaseRequest.GetApi` (src/unnamed/part_003 lines 204-235): memo field
first, else the environment's bound api id, else the `X-StopLight-Api`
header; empty identifier yields the zero `Api`. -/
def getApi (st : Stores) (br : BaseRequest) : Option Api :=
  match br.api with
  | some a => some a
  | none =>
    match getEnvironment st br with
    | none => none
    | some env =>
      let identifier :=
        if env.ApiId ≠ [] then env.ApiId
        else headerGet br.httpRequest.header (strL "X-StopLight-Api")
      some (if identifier = [] then zeroApi else findApiById st identifier)

/-- The post-processing `urlWithoutEnvironment` applies after deleting the
slug (src/helpers/helpers.go lines 183-187): if the result has more than
one byte and its second byte is `/`, trim one leading `/`; if it is
empty, it becomes `/`. -/
def postProcess (n : Str) : Str :=
  if 1 < n.length ∧ n.get? 1 = some '/' then trimLeading (strL "/") n
  else if n.length = 0 then strL "/" else n

/-- `urlWithoutEnvironment` (src/helpers/helpers.go lines 181-190):
`strings.Replace(url, env.Slug, "", 1)` followed by the trim/empty
post-processing. -/
def urlWithoutEnvironment (env : Environment) (url : Str) : Str :=
  postProcess (replaceFirst url env.Slug)

/-- The target of the rewrite chosen by `BaseRequest.GetOrigin`: either a
URL parsed from a target string, or the original request URL untouched. -/
inductive OriginTarget where
  | parsedFrom (target : Str) : OriginTarget
  | originalUrl : OriginTarget
deriving DecidableEq

/-- `BaseRequest.GetOrigin` (src/request/request.go lines 187-208): the
`X-StopLight-Url-Host` header snapshot if non-empty; otherwise the
resolved environment — zero slug means the original request URL is
returned as is; otherwise `https://`/`http://` plus the environment's
upstream host according to its `Ssl` flag (the final `url.Parse` is
abstracted as `parsedFrom` of the target string; `none` = panic inside
environment resolution). -/
def getOrigin (st : Stores) (br : BaseRequest) : Option OriginTarget :=
  let targetUrl := headerGet br.reqHeaders (strL "X-StopLight-Url-Host")
  if targetUrl = [] then
    match getEnvironment st br with
    | none => none
    | some env =>
      if env.Slug = [] then some .originalUrl
      else some (.parsedFrom ((if env.Ssl then strL "https://" else strL "http://") ++ env.Url))
  else some (.parsedFrom targetUrl)

/-- Go `string(strconv.Itoa(resp.StatusCode)[0]) == "2"`
(src/helpers/helpers.go line 213): first byte of the decimal rendering. -/
def statusFirstByteIs2 (n : Nat) : Bool :=
  match (Nat.repr n).toList with
  | [] => false
  | c :: _ => c == '2'

/-- `isValidResponse` (src/helpers/helpers.go lines 199-218): the older
relevance predicate over the raw request and response. -/
def isValidResponse (req : HttpRequest) (resp : Option Response) : Bool :=
  if headerGet req.header (strL "X-StopLight-Ignore") == strL "true" then false
  else
    match resp with
    | none => true
    | some r =>
      let isAjax := headerGet req.header (strL "X-Requested-With")
      let contentType := headerGet r.headers (strL "Content-Type")
      let isGet := req.method == strL "GET"
      let isStopLightRequest := headerGet req.header (strL "X-StopLight-Api")
      let validStatusCode := (r.statusCode == 304) || statusFirstByteIs2 r.statusCode
      !(isStopLightRequest == []) || !isGet || !(isAjax == []) || !validStatusCode ||
        containsSeq contentType (strL "json") || containsSeq contentType (strL "xml")

/-- `isValidResponse` (src/unnamed/part_001 lines 223-250): the current
relevance predicate over the request context.  Skip/ignore short-circuit
to false; dashboard traffic is always captured; otherwise a resolved api
is required, a nil response is capturable, and for live responses the
combined Accept+Content-Type string decides the json/xml-but-not-html
clause (`none` = panic inside api/environment resolution). -/
def isValidResponseCore (st : Stores) (baseRequest : Option BaseRequest)
    (resp : Option Response) : Option Bool :=
  match baseRequest with
  | none => some false
  | some br =>
    if br.Skip then some false
    else if headerGet br.httpRequest.header (strL "X-StopLight-Ignore") == strL "true" then
      some false
    else
      let isStopLightRequest := headerGet br.httpRequest.header (strL "X-StopLight-Dashboard")
      match getApi st br with
      | none => none
      | some api =>
        if isStopLightRequest == strL "true" then some true
        else if !(api.Id == []) then
          match resp with
          | none => some true
          | some r =>
            let isAjax := headerGet br.httpRequest.header (strL "X-Requested-With")
            let acceptType := headerGet br.httpRequest.header (strL "Accept")
            let contentType := headerGet r.headers (strL "Content-Type")
            let typeString := acceptType ++ contentType
            let isGet := br.httpRequest.method == strL "GET"
            let validStatusCode := (r.statusCode == 304) || statusFirstByteIs2 r.statusCode
            some (!isGet || !(isAjax == []) || !validStatusCode ||
              ((containsSeq typeString (strL "json") || containsSeq typeString (strL "xml")) &&
                !(containsSeq typeString (strL "html"))))
        else some false

/-- The constant `allowedCorsMethods` (src/helpers/helpers.go line 21). -/
def allowedCorsMethods : Str :=
  strL "GET,POST,PUT,PATCH,DELETE,COPY,HEAD,OPTIONS,LINK,UNLINK,PURGE,LOCK,UNLOCK,PROPFIND"

/-- The four `resp.Header.Set` calls of `PostflightCorsSupport`
(src/helpers/helpers.go lines 94-97). -/
def setCorsHeaders (ctxReqHeaders h : Headers) : Headers :=
  headerSet (headerSet (headerSet (headerSet h
    (strL "Access-Control-Allow-Credentials") (strL "true"))
    (strL "Access-Control-Allow-Headers")
      (headerGet ctxReqHeaders (strL "Access-Control-Request-Headers")))
    (strL "Access-Control-Allow-Methods") allowedCorsMethods)
    (strL "Access-Control-Allow-Origin") (strL "*")

/-- `PostflightCorsSupport` (src/helpers/helpers.go lines 87-99): return
the response untouched when it is nil, when no context is stored for the
session, or when the resolved environment has an empty slug; otherwise
inject the CORS Allow-* headers.  Outer `none` = panic inside environment
resolution. -/
def postflightCorsSupport (st : Stores) (data : Option BaseRequest)
    (ctxReqHeaders : Headers) (resp : Option Response) :
    Option (Option Response) :=
  match resp, data with
  | none, _ => some none
  | some r, none => some (some r)
  | some r, some d =>
    match getEnvironment st d with
    | none => none
    | some env =>
      if env.Slug = [] then some (some r)
      else some (some { r with headers := setCorsHeaders ctxReqHeaders r.headers })

/-- `SetupResponse` (src/helpers/helpers.go lines 101-120): skip when the
response is nil, the context is missing, or the skip flag is set;
otherwise append to `X-Forwarded-For` and add the capture-marker
header `X-StopLight-Request`. -/
def setupResponse (data : Option BaseRequest) (remoteAddr : Str)
    (resp : Option Response) : Option Response :=
  match resp, data with
  | none, _ => none
  | some r, none => some r
  | some r, some d =>
    if d.Skip then some r
    else
      let xff0 := headerGet r.headers (strL "X-Forwarded-For")
      let xff := if xff0 ≠ [] then xff0 ++ strL ", " ++ remoteAddr else remoteAddr
      some { r with
        headers := headerSet (headerSet r.headers (strL "X-Forwarded-For") xff)
            (strL "X-StopLight-Request") (strL "true") }

/-- The capture record `models.NewRequest` builds for persistence
(src/helpers/helpers.go line 150): tenant identity plus the
request/response snapshot. -/
structure CaptureJob where
  api : Api
  env : Environment
  reqMethod : Str
  reqURI : Str
  reqBody : Str
  respStatus : Nat
  respBody : Str
deriving DecidableEq

/-- `SaveStopLightRequest` (src/helpers/helpers.go lines 122-163): bail
out (no capture) when the context is missing, its skip flag is set, or no
api resolved; otherwise run the relevance predicate and, when relevant,
substitute a synthetic 503 for a nil response and hand a capture job to
the detached persist-and-broadcast work.  Returns the (possibly
substituted) response and the dispatched job, `none` = panic inside
resolution. -/
def saveStopLightRequest (st : Stores) (data : Option BaseRequest)
    (resp : Option Response) : Option (Option Response × Option CaptureJob) :=
  match data with
  | none => some (resp, none)
  | some br =>
    if br.Skip then some (resp, none)
    else
      match getApi st br with
      | none => none
      | some api =>
        if api.Id = [] then some (resp, none)
        else
          let valid := isValidResponse br.httpRequest resp
          match getEnvironment st br with
          | none => none
          | some env =>
            if valid then
              let r := match resp with
                | some r => r
                | none =>
                  { statusCode := 503
                    headers := []
                    body := strL "Service not available. Is the server running?" }
              some (some r, some
                { api := api
                  env := env
                  reqMethod := br.httpRequest.method
                  reqURI := br.httpRequest.requestURI
                  reqBody := br.body
                  respStatus := r.statusCode
                  respBody := r.body })
            else some (resp, none)

/-- The observable effects of the detached persist-and-broadcast goroutine
body in `SaveStopLightRequest` (src/helpers/helpers.go lines 148-159). -/
structure PublishEffects where
  logs : List Str
  events : List (Str × CaptureJob)
deriving DecidableEq

/-- The goroutine body of `SaveStopLightRequest` (src/helpers/helpers.go
lines 148-159): `dbConnection.Create(slrequest)` is abstracted by its
error outcome (`some msg` = `result.Error != nil`); on error the message
is logged and the function returns before broadcasting, otherwise the
`"request.create"` event is broadcast with the record. -/
def capturePublish (createError : Option Str) (slrequest : CaptureJob) :
    PublishEffects :=
  match createError with
  | some e => { logs := [e], events := [] }
  | none => { logs := [], events := [(strL "request.create", slrequest)] }

/-- The `requestData` session map (src/helpers/helpers.go line 24),
`map[int64]*request.BaseRequest` as an association list with unique keys. -/
abbrev SessionMap := List (Int × BaseRequest)

/-- Go map indexing `requestData[session]` (nil when absent). -/
def mapLookup (m : SessionMap) (k : Int) : Option BaseRequest :=
  match m.find? (fun p => p.1 == k) with
  | some p => some p.2
  | none => none

/-- Go `delete(requestData, session)`: removes the key if present, no-op
otherwise, never an error. -/
def mapDelete (m : SessionMap) (k : Int) : SessionMap :=
  m.filter (fun p => !(p.1 == k))

/-- `Cleanup` (src/helpers/helpers.go lines 165-174): delete the two
stoplight control headers from the stored request and delete the session
entry from `requestData`; the response passes through untouched. -/
def cleanup (ctxReqHeaders : Headers) (m : SessionMap) (session : Int)
    (resp : Option Response) : Headers × SessionMap × Option Response :=
  (headerDel (headerDel ctxReqHeaders (strL "X-StopLight-Url-Host"))
      (strL "X-StopLight-Api"),
    mapDelete m session, resp)

/-! ### Lemmas about the string helpers -/

theorem startsWith_append (s t : Str) : startsWith s (s ++ t) = true := by
  induction s with
  | nil => rfl
  | cons a p ih => simp [startsWith, ih]

theorem replaceFirst_nil_pat (l : Str) : replaceFirst l [] = l := by
  cases l with
  | nil => rfl
  | cons c rest => simp [replaceFirst, startsWith]

theorem replaceFirst_append (s t : Str) : replaceFirst (s ++ t) s = t := by
  cases s with
  | nil => simpa using replaceFirst_nil_pat t
  | cons a p =>
    show replaceFirst (a :: (p ++ t)) (a :: p) = t
    have h : startsWith (a :: p) (a :: (p ++ t)) = true :=
      startsWith_append (a :: p) t
    rw [replaceFirst, if_pos h]
    simp [List.drop_left (a :: p) t]

theorem startsWith_cons (a b : Char) (p l : Str)
    (h : startsWith (a :: p) (b :: l) = true) :
    a = b ∧ startsWith p l = true := by
  simpa [startsWith, Bool.and_eq_true] using h

theorem append_slash_of_startsWith (s t : Str)
    (h : startsWith s ('/' :: (s ++ t)) = true) :
    s ++ '/' :: t = '/' :: (s ++ t) := by
  induction s with
  | nil => simp
  | cons a p ih =>
    obtain ⟨ha, hp⟩ := startsWith_cons a '/' p ((a :: p) ++ t) h
    subst ha
    have hp' : startsWith p ('/' :: (p ++ t)) = true := by
      simpa using hp
    have := ih hp'
    simp only [List.cons_append]
    rw [this]

theorem replaceFirst_slash_append (s t : Str) :
    replaceFirst ('/' :: (s ++ t)) s = '/' :: t := by
  rw [replaceFirst]
  by_cases h : startsWith s ('/' :: (s ++ t)) = true
  · rw [if_pos h]
    have heq := append_slash_of_startsWith s t h
    calc ('/' :: (s ++ t)).drop s.length
        = (s ++ '/' :: t).drop s.length := by rw [heq]
      _ = '/' :: t := List.drop_left s ('/' :: t)
  · rw [if_neg h, replaceFirst_append]

theorem startsWith_length_le (p l : Str) (h : startsWith p l = true) :
    p.length ≤ l.length := by
  induction p generalizing l with
  | nil => simp
  | cons a q ih =>
    cases l with
    | nil => simp [startsWith] at h
    | cons b m =>
      obtain ⟨_, hq⟩ := startsWith_cons a b q m h
      simpa using ih m hq

theorem containsSeq_length_le (l p : Str) (h : containsSeq l p = true) :
    p.length ≤ l.length := by
  induction l with
  | nil =>
    cases p with
    | nil => simp
    | cons a q => simp [containsSeq, startsWith] at h
  | cons c rest ih =>
    rw [containsSeq, Bool.or_eq_true] at h
    cases h with
    | inl h => exact startsWith_length_le _ _ h
    | inr h => exact Nat.le_trans (ih h) (by simp)

theorem replaceFirst_length (l p : Str) (h : containsSeq l p = true) :
    (replaceFirst l p).length + p.length = l.length := by
  induction l with
  | nil =>
    cases p with
    | nil => rfl
    | cons a q => simp [containsSeq, startsWith] at h
  | cons c rest ih =>
    rw [replaceFirst]
    by_cases hs : startsWith p (c :: rest) = true
    · rw [if_pos hs, List.length_drop]
      exact Nat.sub_add_cancel (startsWith_length_le _ _ hs)
    · rw [if_neg hs]
      rw [containsSeq, Bool.or_eq_true] at h
      cases h with
      | inl h => exact absurd h hs
      | inr h =>
        have := ih h
        simp only [List.length_cons]
        omega

theorem postProcess_length_le (n : Str) (hn : n ≠ []) :
    (postProcess n).length ≤ n.length := by
  rw [postProcess]
  by_cases h1 : 1 < n.length ∧ n.get? 1 = some '/'
  · rw [if_pos h1, trimLeading]
    by_cases h2 : startsWith (strL "/") n = true
    · rw [if_pos h2]
      simp
    · rw [if_neg h2]
  · rw [if_neg h1]
    have : ¬ n.length = 0 := by
      simpa [List.length_eq_zero] using hn
    rw [if_neg this]

/-! ### C4: slug-stripping corner cases -/

/-- C4: for every environment slug `s`, `urlWithoutEnvironment` maps the
path `s` to `"/"`, maps `s + "/x"` to `"/x"` with or without a leading
`"/"` on the input, and maps `s + "/x/"` to `"/x/"`. -/
theorem urlWithoutEnvironment_slug_cases (env : Environment) :
    urlWithoutEnvironment env env.Slug = strL "/" ∧
    urlWithoutEnvironment env (env.Slug ++ strL "/x") = strL "/x" ∧
    urlWithoutEnvironment env (strL "/" ++ env.Slug ++ strL "/x") = strL "/x" ∧
    urlWithoutEnvironment env (env.Slug ++ strL "/x/") = strL "/x/" := by
  refine ⟨?_, ?_, ?_, ?_⟩
  · unfold urlWithoutEnvironment
    have h := replaceFirst_append env.Slug []
    rw [List.append_nil] at h
    rw [h]
    decide
  · unfold urlWithoutEnvironment
    rw [replaceFirst_append]
    decide
  · unfold urlWithoutEnvironment
    show postProcess (replaceFirst ('/' :: (env.Slug ++ strL "/x")) env.Slug) = strL "/x"
    rw [replaceFirst_slash_append]
    decide
  · unfold urlWithoutEnvironment
    rw [replaceFirst_append]
    decide

/-! ### C10: mid-path slug removal -/

/-- Counterexample to C10 as stated: with slug `"v1"` and path
`"/v1/users"` (which contains but does not start with the slug) the
function does not return the path with the first occurrence of the slug
deleted (`"//users"` — computed here by `replaceFirst`); it additionally
trims a leading slash and returns `"/users"`. -/
theorem urlWithoutEnvironment_not_plain_deletion :
    (strL "v1" ≠ []) ∧
    containsSeq (strL "/v1/users") (strL "v1") = true ∧
    startsWith (strL "v1") (strL "/v1/users") = false ∧
    replaceFirst (strL "/v1/users") (strL "v1") = strL "//users" ∧
    urlWithoutEnvironment { zeroEnv with Slug := strL "v1" } (strL "/v1/users") = strL "/users" ∧
    strL "/users" ≠ strL "//users" := by
  decide

/-- C10 (amended): for every non-empty slug that occurs in, but does not
lead, the path, `urlWithoutEnvironment` does change the path (it is never
returned unmodified), and whenever the deletion of the first occurrence
does not leave `/` as the second byte, the result is exactly the path
with its first occurrence of the slug deleted. -/
theorem urlWithoutEnvironment_removes_first_occurrence (env : Environment) (p : Str)
    (hne : env.Slug ≠ [])
    (hocc : containsSeq p env.Slug = true)
    (hpre : startsWith env.Slug p = false) :
    urlWithoutEnvironment env p ≠ p ∧
    ((replaceFirst p env.Slug).get? 1 ≠ some '/' →
      urlWithoutEnvironment env p = replaceFirst p env.Slug) := by
  have hlen := replaceFirst_length p env.Slug hocc
  have hslen : 0 < env.Slug.length := List.length_pos.mpr hne
  have hn_ne : replaceFirst p env.Slug ≠ [] := by
    cases p with
    | nil =>
      cases hs : env.Slug with
      | nil => exact absurd hs hne
      | cons a q =>
        rw [hs] at hocc
        simp [containsSeq, startsWith] at hocc
    | cons c rest =>
      rw [containsSeq, Bool.or_eq_true] at hocc
      cases hocc with
      | inl h => rw [h] at hpre; exact absurd hpre (by simp)
      | inr h =>
        have hrest := containsSeq_length_le rest env.Slug h
        intro hcontra
        rw [hcontra] at hlen
        simp only [List.length_nil, Nat.zero_add, List.length_cons] at hlen
        omega
  have hlt : (replaceFirst p env.Slug).length < p.length := by omega
  constructor
  · intro hcontra
    have h1 : (urlWithoutEnvironment env p).length ≤ (replaceFirst p env.Slug).length :=
      postProcess_length_le _ hn_ne
    rw [hcontra] at h1
    omega
  · intro hg
    unfold urlWithoutEnvironment postProcess
    have hc1 : ¬ (1 < (replaceFirst p env.Slug).length ∧
        (replaceFirst p env.Slug).get? 1 = some '/') := by
      intro hcontra
      exact hg hcontra.2
    rw [if_neg hc1]
    have hc2 : ¬ (replaceFirst p env.Slug).length = 0 := by
      simpa [List.length_eq_zero] using hn_ne
    rw [if_neg hc2]

/-- Witness for the amended C10 at the spec's own example: slug `"api"`,
path `"/v1/api/users"`; the path is changed and equals the path with the
first occurrence of the slug deleted. -/
theorem urlWithoutEnvironment_removes_first_occurrence_witness :
    urlWithoutEnvironment { zeroEnv with Slug := strL "api" } (strL "/v1/api/users") ≠
      strL "/v1/api/users" ∧
    urlWithoutEnvironment { zeroEnv with Slug := strL "api" } (strL "/v1/api/users") =
      replaceFirst (strL "/v1/api/users") (strL "api") := by
  have h := urlWithoutEnvironment_removes_first_occurrence
    { zeroEnv with Slug := strL "api" } (strL "/v1/api/users")
    (by decide) (by decide) (by decide)
  exact ⟨h.1, h.2 (by decide)⟩

/-! ### Concrete fixtures used by witnesses -/

/-- A running environment bound to an api, used by the witnesses. -/
def envAcme : Environment :=
  { Id := strL "e1", Slug := strL "acme", Url := strL "api.internal:9000",
    Ssl := false, ApiId := strL "a1", running := true }

/-- A store holding `envAcme` and its api. -/
def st0 : Stores := { envs := [envAcme], apis := [{ Id := strL "a1" }] }

/-- A plain GET request for `/acme/x`. -/
def req0 : HttpRequest :=
  { method := strL "GET", header := [], urlPath := strL "/acme/x",
    urlHost := [], requestURI := strL "/acme/x",
    remoteAddr := strL "1.2.3.4", body := [] }

/-- The request context `SetupRequest` builds for `req0`. -/
def br0 : BaseRequest := NewBaseRequest req0

/-- `br0` after the CORS preflight stage set its skip flag. -/
def brSkip : BaseRequest := { br0 with Skip := true }

/-- A bare 200 response with no headers. -/
def respEmpty : Response := { statusCode := 200, headers := [], body := [] }

/-- A capture record fixture. -/
def jobExample : CaptureJob :=
  { api := { Id := strL "a1" }, env := envAcme, reqMethod := strL "GET",
    reqURI := strL "/acme/x", reqBody := [], respStatus := 200, respBody := [] }

/-! ### C7: slug extraction on the empty path -/

/-- C7: `slugFromUrl` is not total — on the empty path the source indexes
`url[0]` out of range (modelled as `none`) instead of returning the empty
slug; on the repository's own nonempty test vectors it behaves as the
spec documents. -/
theorem slugFromUrl_empty_path_panics :
    slugFromUrl (strL "") = none ∧
    slugFromUrl (strL "/") = some (strL "") ∧
    slugFromUrl (strL "/foo") = some (strL "foo") ∧
    slugFromUrl (strL "/foo/bar") = some (strL "foo") ∧
    slugFromUrl (strL "foo") = some (strL "foo") ∧
    slugFromUrl (strL "/foo-bar/fee/") = some (strL "foo-bar") := by
  decide

/-! ### C1: environment resolution is not memoized -/

/-- C1: on a context whose environment field is unset, `GetEnvironment`
leaves the receiver unchanged (the memo field is never assigned) and
performs at least one store lookup, and the immediately repeated call
runs the very same resolution again — it does not return a stored record
without lookups. -/
theorem getEnvironment_not_memoized (st : Stores) (br : BaseRequest)
    (e : Environment) (br' : BaseRequest) (k : Nat)
    (h0 : br.env = none)
    (h1 : getEnvironmentS st br = some (e, br', k)) :
    br' = br ∧ 1 ≤ k ∧ getEnvironmentS st br' = some (e, br', k) := by
  have h2 := h1
  rw [getEnvironmentS, h0] at h2
  cases hslug : slugFromUrl br.httpRequest.requestURI with
  | none =>
    rw [hslug] at h2
    exact absurd h2 (by simp)
  | some identifier =>
    rw [hslug] at h2
    simp only at h2
    split at h2 <;>
    · simp only [Option.some.injEq, Prod.mk.injEq] at h2
      obtain ⟨he, hbr, hk⟩ := h2
      subst hbr
      exact ⟨rfl, by omega, h1⟩

/-- Witness for C1: resolving `br0` against `st0` performs one lookup,
leaves the context unchanged, and the repeated call does the same. -/
theorem getEnvironment_not_memoized_witness :
    br0 = br0 ∧ 1 ≤ 1 ∧ getEnvironmentS st0 br0 = some (envAcme, br0, 1) :=
  getEnvironment_not_memoized st0 br0 envAcme br0 1 rfl (by decide)

/-! ### C9: idempotent session teardown -/

/-- C9: session teardown is idempotent: running `Cleanup` again on the
session map produced by a first `Cleanup` leaves the map unchanged, and
removing a session identifier that is not present is a no-op (Go map
`delete` never raises an error; the function is total). -/
theorem cleanup_idempotent (h h2 : Headers) (m : SessionMap) (k : Int)
    (r r2 : Option Response) :
    (cleanup h2 (cleanup h m k r).2.1 k r2).2.1 = (cleanup h m k r).2.1 ∧
    (mapLookup m k = none → (cleanup h m k r).2.1 = m) := by
  constructor
  · show mapDelete (mapDelete m k) k = mapDelete m k
    unfold mapDelete
    apply List.filter_eq_self.mpr
    intro a ha
    exact (List.mem_filter.mp ha).2
  · intro hnone
    show mapDelete m k = m
    unfold mapDelete
    apply List.filter_eq_self.mpr
    intro a ha
    rw [mapLookup] at hnone
    cases hfind : m.find? (fun p => p.1 == k) with
    | some p => rw [hfind] at hnone; exact absurd hnone (by simp)
    | none =>
      have := List.find?_eq_none.mp hfind a ha
      simpa using this

/-- Witness for C9: double removal of session 5, and removal of the
absent session 5 from a singleton map keyed by 3, are no-ops. -/
theorem cleanup_idempotent_witness :
    (cleanup [] (cleanup [] [(3, br0)] 5 none).2.1 5 none).2.1 =
      (cleanup [] [(3, br0)] 5 none).2.1 ∧
    (cleanup [] [(3, br0)] 5 none).2.1 = [(3, br0)] :=
  ⟨(cleanup_idempotent [] [] [(3, br0)] 5 none none).1,
   (cleanup_idempotent [] [] [(3, br0)] 5 none none).2 (by decide)⟩

/-! ### C8: persistence failure aborts the broadcast -/

/-- C8: in the capture goroutine, a persistence error is logged and the
`"request.create"` broadcast is skipped for that record; the event is
broadcast exactly when persistence succeeds. -/
theorem capturePublish_error_aborts_broadcast (res : Option Str) (job : CaptureJob) :
    (∀ e, res = some e →
      (capturePublish res job).events = [] ∧ (capturePublish res job).logs = [e]) ∧
    ((capturePublish res job).events ≠ [] → res = none) ∧
    (res = none →
      (capturePublish res job).events = [(strL "request.create", job)]) := by
  cases res with
  | none => simp [capturePublish]
  | some e => simp [capturePublish]

/-- Witness for C8: a failed create logs and broadcasts nothing; a
successful create broadcasts the record. -/
theorem capturePublish_error_aborts_broadcast_witness :
    (capturePublish (some (strL "db down")) jobExample).events = [] ∧
    (capturePublish none jobExample).events = [(strL "request.create", jobExample)] :=
  ⟨((capturePublish_error_aborts_broadcast (some (strL "db down")) jobExample).1
      (strL "db down") rfl).1,
   (capturePublish_error_aborts_broadcast none jobExample).2.2 rfl⟩

/-! ### C5: rewrite-target priority -/

/-- C5: `GetOrigin` picks the rewrite target in priority order: a
non-empty `X-StopLight-Url-Host` header wins; otherwise, with a resolved
environment whose slug is non-empty, the target is `https://` plus the
upstream host when the TLS flag is set and `http://` plus the upstream
host otherwise; and with no resolved environment (zero slug) the
original request URL is passed through untouched. -/
theorem getOrigin_priority (st : Stores) (br : BaseRequest) :
    (headerGet br.reqHeaders (strL "X-StopLight-Url-Host") ≠ [] →
      getOrigin st br =
        some (.parsedFrom (headerGet br.reqHeaders (strL "X-StopLight-Url-Host")))) ∧
    (∀ env, headerGet br.reqHeaders (strL "X-StopLight-Url-Host") = [] →
      getEnvironment st br = some env →
      (env.Slug = [] → getOrigin st br = some .originalUrl) ∧
      (env.Slug ≠ [] → env.Ssl = true →
        getOrigin st br = some (.parsedFrom (strL "https://" ++ env.Url))) ∧
      (env.Slug ≠ [] → env.Ssl = false →
        getOrigin st br = some (.parsedFrom (strL "http://" ++ env.Url)))) := by
  constructor
  · intro hover
    rw [getOrigin]
    simp only [if_neg hover]
  · intro env hover henv
    refine ⟨?_, ?_, ?_⟩
    · intro hslug
      rw [getOrigin]
      simp only [hover, if_pos rfl, henv, hslug, if_pos rfl]
      simp
    · intro hslug hssl
      rw [getOrigin]
      simp only [hover, if_pos rfl, henv, if_neg hslug, hssl, if_pos rfl]
      simp
    · intro hslug hssl
      rw [getOrigin]
      simp only [hover, if_pos rfl, henv, if_neg hslug, hssl]
      simp

/-- Witness for C5: `br0` has no override header, resolves `envAcme`
(non-empty slug, TLS off), so the target is `http://` plus its upstream
host. -/
theorem getOrigin_priority_witness :
    getOrigin st0 br0 = some (.parsedFrom (strL "http://" ++ envAcme.Url)) :=
  (((getOrigin_priority st0 br0).2 envAcme rfl (by decide)).2.2) (by decide) rfl

/-! ### C3: the relevance truth-table rows for plain GETs -/

/-- C3: with a resolved api, no skip flag, no ignore directive, no
dashboard directive and no ajax marker, the relevance decision on a GET
whose 200 response carries `Content-Type: text/html` is not capturable,
and on a GET with `Accept: application/json` whose 200 response carries
no content type it is capturable (current `isValidResponse`,
src/unnamed/part_001). -/
theorem isValidResponseCore_get200_cases (st : Stores) (br : BaseRequest)
    (r : Response) (api : Api)
    (hskip : br.Skip = false)
    (hign : headerGet br.httpRequest.header (strL "X-StopLight-Ignore") ≠ strL "true")
    (hdash : headerGet br.httpRequest.header (strL "X-StopLight-Dashboard") ≠ strL "true")
    (hapi : getApi st br = some api)
    (hid : api.Id ≠ [])
    (hget : br.httpRequest.method = strL "GET")
    (hstatus : r.statusCode = 200)
    (hajax : headerGet br.httpRequest.header (strL "X-Requested-With") = []) :
    (headerGet br.httpRequest.header (strL "Accept") = [] →
      headerGet r.headers (strL "Content-Type") = strL "text/html" →
      isValidResponseCore st (some br) (some r) = some false) ∧
    (headerGet br.httpRequest.header (strL "Accept") = strL "application/json" →
      headerGet r.headers (strL "Content-Type") = [] →
      isValidResponseCore st (some br) (some r) = some true) := by
  have hign' : (headerGet br.httpRequest.header (strL "X-StopLight-Ignore") ==
      strL "true") = false := beq_eq_false_iff_ne.mpr hign
  have hdash' : (headerGet br.httpRequest.header (strL "X-StopLight-Dashboard") ==
      strL "true") = false := beq_eq_false_iff_ne.mpr hdash
  have hid' : (api.Id == []) = false := beq_eq_false_iff_ne.mpr hid
  constructor
  · intro haccept hct
    rw [isValidResponseCore]
    simp only [hskip, hign', hdash', hapi, hid', hget, hstatus, hajax, haccept, hct]
    decide
  · intro haccept hct
    rw [isValidResponseCore]
    simp only [hskip, hign', hdash', hapi, hid', hget, hstatus, hajax, haccept, hct]
    decide

/-- Witness for C3: against `st0`, a plain GET to `/acme/x` with a 200
`text/html` response is not capturable, while the same GET carrying
`Accept: application/json` with a bare 200 response is capturable. -/
theorem isValidResponseCore_get200_cases_witness :
    isValidResponseCore st0 (some br0)
      (some { statusCode := 200,
              headers := [(strL "Content-Type", strL "text/html")],
              body := [] }) = some false ∧
    isValidResponseCore st0
      (some (NewBaseRequest { req0 with
        header := [(strL "Accept", strL "application/json")] }))
      (some respEmpty) = some true := by
  constructor
  · exact (isValidResponseCore_get200_cases st0 br0
      { statusCode := 200,
        headers := [(strL "Content-Type", strL "text/html")], body := [] }
      { Id := strL "a1" }
      rfl (by decide) (by decide) (by decide) (by decide) rfl rfl rfl).1 rfl rfl
  · exact (isValidResponseCore_get200_cases st0
      (NewBaseRequest { req0 with
        header := [(strL "Accept", strL "application/json")] })
      respEmpty { Id := strL "a1" }
      rfl (by decide) (by decide) (by decide) (by decide) rfl rfl
      (by decide)).2 (by decide) rfl

/-! ### C6: the skip flag and the post-response stages -/

/-- The response `PostflightCorsSupport` produces from `respEmpty` for a
session whose environment resolves: the CORS Allow-* headers are set. -/
def respCors : Response :=
  { statusCode := 200, headers := setCorsHeaders [] [], body := [] }

/-- Counterexample to C6 as stated: `brSkip` has its skip flag set, yet
`PostflightCorsSupport` (which checks the environment slug but never the
skip flag) still injects the CORS Allow-* headers into its 200 response,
so the post-response stages do not leave the headers unchanged. -/
theorem postflight_ignores_skip_cex :
    brSkip.Skip = true ∧
    postflightCorsSupport st0 (some brSkip) [] (some respEmpty) =
      some (some respCors) ∧
    headerGet respCors.headers (strL "Access-Control-Allow-Origin") = strL "*" ∧
    headerGet respEmpty.headers (strL "Access-Control-Allow-Origin") = [] ∧
    respCors ≠ respEmpty := by
  decide

/-- Environment resolution reads the request and the memo field only, so
it is unaffected by clearing the skip flag. -/
theorem getEnvironment_skip_irrelevant (st : Stores) (br : BaseRequest) :
    getEnvironment st { br with Skip := false } = getEnvironment st br := by
  obtain ⟨hr, rh, bd, sk, en, ap⟩ := br
  cases en with
  | some e => rfl
  | none =>
    simp only [getEnvironment, getEnvironmentS]
    cases hs : slugFromUrl hr.requestURI with
    | none => simp [hs]
    | some identifier =>
      by_cases hid : (findEnvBySlug st identifier).Id = []
      · simp [hs, hid]
      · simp [hs, hid]

/-- C6 (amended): when the skip flag is set, `SetupResponse` returns the
response untouched (no `X-Forwarded-For`, no capture marker) and
`SaveStopLightRequest` dispatches no capture; but `PostflightCorsSupport`
does not consult the skip flag — its output is identical to that for the
same context with the flag cleared, so the CORS Allow-* headers are still
injected whenever an environment with a non-empty slug resolves. -/
theorem skip_suppresses_capture_but_not_cors (st : Stores) (br : BaseRequest)
    (addr : Str) (h : Headers) (resp : Option Response)
    (hskip : br.Skip = true) :
    setupResponse (some br) addr resp = resp ∧
    saveStopLightRequest st (some br) resp = some (resp, none) ∧
    postflightCorsSupport st (some br) h resp =
      postflightCorsSupport st (some { br with Skip := false }) h resp := by
  refine ⟨?_, ?_, ?_⟩
  · cases resp with
    | none => rfl
    | some r => simp [setupResponse, hskip]
  · simp [saveStopLightRequest, hskip]
  · have hg := getEnvironment_skip_irrelevant st br
    cases resp with
    | none => rfl
    | some r =>
      simp only [postflightCorsSupport]
      rw [hg]

/-- Witness for the amended C6 at the concrete skipped context `brSkip`. -/
theorem skip_suppresses_capture_but_not_cors_witness :
    setupResponse (some brSkip) [] (some respEmpty) = some respEmpty ∧
    saveStopLightRequest st0 (some brSkip) (some respEmpty) =
      some (some respEmpty, none) ∧
    postflightCorsSupport st0 (some brSkip) [] (some respEmpty) =
      postflightCorsSupport st0 (some { brSkip with Skip := false }) [] (some respEmpty) :=
  skip_suppresses_capture_but_not_cors st0 brSkip [] [] (some respEmpty) rfl
